import Mathlib

/-!
Verification of the RhythmBox favorites pagination/sorting service,
favorites store adapter, and cache layer, as a shallow embedding of the
Python source (`app.py`, `src/favorites_manager.py`, `src/cache_manager.py`).

External collaborators (the Spotify client, Redis) are modelled as explicit
parameters: route handlers take the results of the `FavoritesManager` calls
they perform, and the adapter functions take the external API's response as a
function argument.  Machine integers are `Int`/`Nat` (Python integers are
unbounded, so no wrap-around modelling is needed); Python `//` on integers is
`Int.fdiv` (floor division); fallible operations return `Option`/pairs with
an `Option String` error component, mirroring the `(value, error)` tuples of
the source.
-/

set_option maxRecDepth 40000

namespace RhythmBox

/-- Model of Python `str.casefold()` used by the sort keys in `app.py`
(for the strings handled here, case folding coincides with lowercasing). -/
def casefold (s : String) : String := ⟨s.data.map Char.toLower⟩

/-- Python's string `<`: lexicographic comparison of the code-point
sequences. -/
def strLt : List Char → List Char → Bool
  | [], [] => false
  | [], _ :: _ => true
  | _ :: _, [] => false
  | a :: as, b :: bs =>
    if a.toNat < b.toNat then true
    else if b.toNat < a.toNat then false
    else strLt as bs

/-- Python's string `<` on strings. -/
def pyLt (a b : String) : Prop := strLt a.data b.data = true

/-- Python's string `<=` on strings (`a <= b` iff `not (b < a)`). -/
def pyLe (a b : String) : Prop := strLt b.data a.data = false

instance : DecidableRel pyLt := fun a b => inferInstanceAs (Decidable (_ = true))

instance : DecidableRel pyLe := fun a b => inferInstanceAs (Decidable (_ = false))

/-- Python's `str.strip()`: remove whitespace from both ends. -/
def pyStrip (s : String) : String :=
  ⟨((s.data.dropWhile Char.isWhitespace).reverse.dropWhile
      Char.isWhitespace).reverse⟩

/-- The `Track` dataclass of `src/models.py`: `id, name, artist, album,
spotify_url, image_url, preview_url`.  `name` and `artist` are modelled as
`Option String` because the route code defends against `None` values
(`t.name or ''`). -/
structure Track where
  id : String
  name : Option String
  artist : Option String
  album : String
  spotify_url : String
  image_url : String
  preview_url : Option String := none
deriving Repr, DecidableEq

/-- The per-track dictionary emitted by `/api/favoritos`
(`id, name, artist, album, image_url, spotify_url`). -/
structure TrackOut where
  id : String
  name : Option String
  artist : Option String
  album : String
  image_url : String
  spotify_url : String
deriving Repr, DecidableEq

/-- Conversion of a `Track` to the API output dictionary, from
`app.py` (`tracks_data` construction in `api_favoritos`). -/
def trackOut (t : Track) : TrackOut :=
  ⟨t.id, t.name, t.artist, t.album, t.image_url, t.spotify_url⟩

/-- `sort_key_name` of `app.py`: `(t.name or '').casefold()`. -/
def sort_key_name (t : Track) : String := casefold (t.name.getD "")

/-- `sort_key_artist` of `app.py`: `(t.artist or '').casefold()`. -/
def sort_key_artist (t : Track) : String := casefold (t.artist.getD "")

/-- The comparison used by `tracks.sort(key=sort_key_name)`. -/
def nameLe (a b : Track) : Prop := pyLe (sort_key_name a) (sort_key_name b)

/-- The comparison used by `tracks.sort(key=sort_key_name, reverse=True)`:
a stable sort placing larger keys first. -/
def nameGe (a b : Track) : Prop := pyLe (sort_key_name b) (sort_key_name a)

/-- The comparison used by `tracks.sort(key=sort_key_artist)`. -/
def artistLe (a b : Track) : Prop := pyLe (sort_key_artist a) (sort_key_artist b)

/-- The comparison used by `tracks.sort(key=sort_key_artist, reverse=True)`. -/
def artistGe (a b : Track) : Prop := pyLe (sort_key_artist b) (sort_key_artist a)

instance : DecidableRel nameLe :=
  fun a b => inferInstanceAs (Decidable (pyLe _ _))

instance : DecidableRel nameGe :=
  fun a b => inferInstanceAs (Decidable (pyLe _ _))

instance : DecidableRel artistLe :=
  fun a b => inferInstanceAs (Decidable (pyLe _ _))

instance : DecidableRel artistGe :=
  fun a b => inferInstanceAs (Decidable (pyLe _ _))

/-- The sort dispatch of `app.py` (`favoritos` / `api_favoritos`): Python's
`list.sort` is a stable sort, modelled by `List.insertionSort` (stable by
construction); `reverse=True` is a stable sort under the reversed key
comparison. Unknown sort modes leave the list unchanged. -/
def sortTracks (sort : String) (tracks : List Track) : List Track :=
  if sort = "name-asc" then List.insertionSort nameLe tracks
  else if sort = "name-desc" then List.insertionSort nameGe tracks
  else if sort = "artist-asc" then List.insertionSort artistLe tracks
  else if sort = "artist-desc" then List.insertionSort artistGe tracks
  else tracks

/-- Which `FavoritesManager` calls a route handler performed:
whether `get_all_saved_tracks` was called, and the `(limit, offset)`
arguments of the `get_saved_tracks` call, when one was made. -/
structure RouteTrace where
  fetchAllCalled : Bool
  pagedCall : Option (Int × Int)
deriving Repr, DecidableEq

/-- Result of the `/api/favoritos` JSON endpoint: either an error response
with an HTTP status, or a success payload
`{tracks, total, page, limit, total_pages}`. -/
inductive ApiFav where
  | failure (error : String) (status : Nat)
  | success (tracks : List TrackOut) (total : Int) (page : Int)
      (limit : Int) (total_pages : Int)
deriving Repr, DecidableEq

/-- The `/api/favoritos` route handler of `app.py` (lines 716-833).
`getAllRes` is the result of `FavoritesManager.get_all_saved_tracks()`,
`getPageRes limit offset` that of `get_saved_tracks(limit, offset)`, and
`getTotalRes` that of `get_total_saved_tracks()`. -/
def api_favoritos (page limit : Int) (sort : String)
    (getAllRes : List Track × Option String)
    (getPageRes : Int → Int → List Track × Option String)
    (getTotalRes : Int × Option String) : ApiFav × RouteTrace :=
  let page1 := max 1 page
  if limit > 1000 ∨ sort ≠ "default" then
    match getAllRes with
    | (_, some e) => (.failure e 500, ⟨true, none⟩)
    | (tracks0, none) =>
      let tracks := sortTracks sort tracks0
      let total : Int := tracks.length
      if limit > 1000 then
        (.success (tracks.map trackOut) total 1 total 1, ⟨true, none⟩)
      else
        let limit2 := min (max 20 limit) 100
        let page2 := max 1 page1
        let start := (page2 - 1) * limit2
        let paged := (tracks.drop start.toNat).take limit2.toNat
        (.success (paged.map trackOut) total page2 limit2
          (Int.fdiv (total + limit2 - 1) limit2), ⟨true, none⟩)
  else
    let limit2 := min (max 20 limit) 100
    let offset := (page1 - 1) * limit2
    match getPageRes limit2 offset with
    | (_, some e) => (.failure e 500, ⟨false, some (limit2, offset)⟩)
    | (tracks, none) =>
      let total : Int :=
        match getTotalRes with
        | (_, some _) => tracks.length
        | (t, none) => t
      (.success (tracks.map trackOut) total page1 limit2
        (Int.fdiv (total + limit2 - 1) limit2), ⟨false, some (limit2, offset)⟩)

/-- The `render_template('favoritos.html', ...)` keyword arguments produced
by the HTML `/favoritos` route. -/
structure FavRender where
  tracks : List Track
  error : Option String
  total : Int
  page : Int
  limit : Int
  sort : String
deriving Repr, DecidableEq

/-- The HTML `/favoritos` route handler of `app.py` (lines 602-710), with the
same collaborator parameters as `api_favoritos`. -/
def favoritos (page limit : Int) (sort : String)
    (getAllRes : List Track × Option String)
    (getPageRes : Int → Int → List Track × Option String)
    (getTotalRes : Int × Option String) : FavRender × RouteTrace :=
  let page1 := max 1 page
  if limit > 1000 ∨ sort ≠ "default" then
    match getAllRes with
    | (_, some e) => (⟨[], some e, 0, 1, 20, sort⟩, ⟨true, none⟩)
    | (tracks0, none) =>
      let tracks := sortTracks sort tracks0
      let total : Int := tracks.length
      if limit > 1000 then
        (⟨tracks, none, total, 1, 9999, sort⟩, ⟨true, none⟩)
      else
        let limit2 := min (max 20 limit) 100
        let page2 := max 1 page1
        let start := (page2 - 1) * limit2
        (⟨(tracks.drop start.toNat).take limit2.toNat, none, total, page2,
            limit2, sort⟩, ⟨true, none⟩)
  else
    let limit2 := min (max 20 limit) 100
    let offset := (page1 - 1) * limit2
    match getPageRes limit2 offset, getTotalRes with
    | (tracks, perr), (t, terr) =>
      let total : Int := if terr.isSome then (tracks.length : Int) else t
      match perr with
      | some e => (⟨[], some e, 0, 1, limit2, sort⟩, ⟨false, some (limit2, offset)⟩)
      | none =>
          (⟨tracks, none, total, page1, limit2, sort⟩,
            ⟨false, some (limit2, offset)⟩)

/-! ### Favorites store adapter (`src/favorites_manager.py`) -/

/-- `FavoritesManager.MAX_TRACKS_PER_REQUEST`. -/
def MAX_TRACKS_PER_REQUEST : Int := 50

/-- `FavoritesManager.MAX_IDS_CHECK`. -/
def MAX_IDS_CHECK : Nat := 50

/-- One response of `sp.current_user_saved_tracks(limit, offset)`:
the call can raise (`exn`), return a falsy value (`falsy`), return a dict
without a usable `items` list (`noItems`), or return an `items` list whose
entries each either parse to a `Track` or are skipped (`none` entries model
items that fail `_parse_tracks_from_response`'s checks). -/
inductive SavedTracksResp where
  | exn (msg : String)
  | falsy
  | noItems
  | ok (items : List (Option Track))
deriving Repr, DecidableEq

/-- `FavoritesManager._parse_tracks_from_response`: keep the items that
convert to a `Track`, skip the rest. -/
def parseTracks (items : List (Option Track)) : List Track := items.filterMap id

/-- `FavoritesManager.get_saved_tracks(limit, offset)` (lines 80-123).
`auth` is the error component of `_validate_authentication` (`none` =
authenticated); `api limit offset` is the Spotify call's response.  Returns
the `(tracks, error)` pair together with the `(limit, offset)` actually
passed to the API (`none` when no call was made). -/
def get_saved_tracks (limit offset : Int) (auth : Option String)
    (api : Int → Int → SavedTracksResp) :
    (List Track × Option String) × Option (Int × Int) :=
  let limit2 := max 1 (min MAX_TRACKS_PER_REQUEST limit)
  let offset2 := max 0 offset
  match auth with
  | some e => (([], some e), none)
  | none =>
    match api limit2 offset2 with
    | .exn e => (([], some ("Erro ao obter favoritos: " ++ e)), some (limit2, offset2))
    | .falsy => (([], some "Nenhum resultado retornado pela API"), some (limit2, offset2))
    | .noItems => (([], none), some (limit2, offset2))
    | .ok items => ((parseTracks items, none), some (limit2, offset2))

/-- The `while True` auto-pagination loop of
`FavoritesManager.get_all_saved_tracks` (lines 146-178).  `api offset` is the
response of `sp.current_user_saved_tracks(limit=50, offset=offset)`; the
returned trace lists the `(limit, offset)` pairs of the calls issued. -/
def getAllLoop (api : Nat → SavedTracksResp) (offset page : Nat)
    (acc : List Track) (trace : List (Nat × Nat)) :
    (List Track × Option String) × List (Nat × Nat) :=
  let trace2 := trace ++ [(50, offset)]
  match api offset with
  | .exn e => (([], some ("Erro ao obter todos os favoritos: " ++ e)), trace2)
  | .falsy => ((acc, none), trace2)
  | .noItems => ((acc, none), trace2)
  | .ok items =>
    if items = [] then ((acc, none), trace2)
    else
      let acc2 := acc ++ parseTracks items
      if items.length < 50 then ((acc2, none), trace2)
      else if h : 1000 < page + 1 then ((acc2, none), trace2)
      else getAllLoop api (offset + 50) (page + 1) acc2 trace2
termination_by 1001 - page
decreasing_by simp_wf; omega

/-- `FavoritesManager.get_all_saved_tracks()` (lines 126-187): start the
auto-pagination loop at `offset=0, page=1` after authentication. -/
def get_all_saved_tracks (auth : Option String) (api : Nat → SavedTracksResp) :
    (List Track × Option String) × List (Nat × Nat) :=
  match auth with
  | some e => (([], some e), [])
  | none => getAllLoop api 0 1 [] []

/-- One response of `sp.current_user_saved_tracks_contains(chunk)`:
raises, returns a non-list/`None` value, or returns a list of booleans. -/
inductive ContainsResp where
  | exn (msg : String)
  | invalid
  | ok (res : List Bool)
deriving Repr, DecidableEq

/-- The id-cleaning list comprehension of `check_saved_tracks` (line 272):
`[tid.strip() for tid in track_ids if tid and tid.strip()]`. -/
def cleanIds (ids : List String) : List String :=
  ids.filterMap fun tid =>
    if tid = "" then none
    else if pyStrip tid = "" then none
    else some (pyStrip tid)

/-- The chunking loop of `check_saved_tracks` (lines 288-305):
`for i in range(0, len(track_ids), 50)`, degrading a `None`/non-list chunk
response to `False` entries.  The trace records the chunks sent to the API. -/
def checkLoop (api : List String → ContainsResp) (ids : List String) (i : Nat)
    (acc : List Bool) (calls : List (List String)) :
    (List Bool × Option String) × List (List String) :=
  if h : i < ids.length then
    let chunk := (ids.drop i).take MAX_IDS_CHECK
    let calls2 := calls ++ [chunk]
    match api chunk with
    | .exn e => (([], some ("Erro ao verificar favoritos: " ++ e)), calls2)
    | .invalid =>
        checkLoop api ids (i + MAX_IDS_CHECK)
          (acc ++ List.replicate chunk.length false) calls2
    | .ok res => checkLoop api ids (i + MAX_IDS_CHECK) (acc ++ res) calls2
  else ((acc, none), calls)
termination_by ids.length - i
decreasing_by all_goals (simp_wf; simp [MAX_IDS_CHECK]; omega)

/-- `FavoritesManager.check_saved_tracks(track_ids)` (lines 253-316). -/
def check_saved_tracks (ids : List String) (auth : Option String)
    (api : List String → ContainsResp) :
    (List Bool × Option String) × List (List String) :=
  if ids = [] then (([], none), [])
  else
    let cleaned := cleanIds ids
    if cleaned = [] then (([], some "Nenhum ID válido fornecido."), [])
    else
      match auth with
      | some e => (([], some e), [])
      | none => checkLoop api cleaned 0 [] []

/-! ### Cache layer (`src/cache_manager.py`) -/

/-- State of the `CacheManager`'s Redis store: the stored entries (value
plus the TTL they were stored with), whether the store is enabled and
reachable (`enabled`, the liveness property checked by the `enabled`
property), and whether a `set` would currently fail (`setFails`, modelling a
store-level exception in `CacheManager.set`). -/
structure CacheSt (α : Type) where
  store : String → Option (α × Option Nat)
  enabled : Bool
  setFails : Bool

/-- `CacheManager.get` (lines 80-104): `None` when disabled or missing;
otherwise the stored value. -/
def cache_get (st : CacheSt α) (key : String) : Option α :=
  if st.enabled then (st.store key).map (·.1) else none

/-- `CacheManager.set` (lines 106-139): no-op returning `False` when the
cache is disabled or the store raises; otherwise records the value with its
TTL and returns `True`. -/
def cache_set (st : CacheSt α) (key : String) (v : α) (ttl : Option Nat) :
    CacheSt α × Bool :=
  if !st.enabled then (st, false)
  else if st.setFails then (st, false)
  else ({ st with store := fun k => if k = key then some (v, ttl) else st.store k },
        true)

/-- One invocation of the `cache_result(prefix, ttl)` wrapper
(`cache_manager.py` lines 271-309) at a fixed cache key.  `f` is the value
the wrapped operation would return on these arguments (`none` models Python
`None`).  Returns `((returned value, new cache state), wrapped-op invoked?)`. -/
def cache_result_call (key : String) (ttl : Nat) (f : Option α)
    (st : CacheSt α) : (Option α × CacheSt α) × Bool :=
  if !st.enabled then ((f, st), true)
  else
    match cache_get st key with
    | some v => ((some v, st), false)
    | none =>
      match f with
      | none => ((none, st), true)
      | some v => ((some v, (cache_set st key v (some ttl)).1), true)

/-! ### Cache key generation (`CacheManager._generate_key`, lines 53-78)

The source computes `hashlib.md5(key_string.encode()).hexdigest()[:16]`.
`encode()` is UTF-8; MD5 is modelled from its specification (RFC 1321) since
`hashlib` is a library collaborator of the source. -/

/-- UTF-8 encoding of one character, as produced by Python `str.encode()`. -/
def utf8Bytes (c : Char) : List Nat :=
  let n := c.toNat
  if n < 0x80 then [n]
  else if n < 0x800 then [0xC0 ||| (n >>> 6), 0x80 ||| (n &&& 0x3F)]
  else if n < 0x10000 then
    [0xE0 ||| (n >>> 12), 0x80 ||| ((n >>> 6) &&& 0x3F), 0x80 ||| (n &&& 0x3F)]
  else
    [0xF0 ||| (n >>> 18), 0x80 ||| ((n >>> 12) &&& 0x3F),
      0x80 ||| ((n >>> 6) &&& 0x3F), 0x80 ||| (n &&& 0x3F)]

/-- UTF-8 encoding of a string as a byte list. -/
def utf8Encode (s : String) : List Nat := (s.data.map utf8Bytes).flatten

/-- Reduction to a 32-bit word. -/
def w32 (n : Nat) : Nat := n % 4294967296

/-- 32-bit modular addition. -/
def wadd (a b : Nat) : Nat := (a + b) % 4294967296

/-- 32-bit left rotation (inputs below `2^32`). -/
def rotl (x s : Nat) : Nat := w32 (x <<< s) ||| (x >>> (32 - s))

/-- The 64 MD5 sine-derived round constants `K[i] = floor(2^32 * |sin(i+1)|)`. -/
def md5K : List Nat :=
  [0xd76aa478, 0xe8c7b756, 0x242070db, 0xc1bdceee, 0xf57c0faf, 0x4787c62a,
   0xa8304613, 0xfd469501, 0x698098d8, 0x8b44f7af, 0xffff5bb1, 0x895cd7be,
   0x6b901122, 0xfd987193, 0xa679438e, 0x49b40821, 0xf61e2562, 0xc040b340,
   0x265e5a51, 0xe9b6c7aa, 0xd62f105d, 0x02441453, 0xd8a1e681, 0xe7d3fbc8,
   0x21e1cde6, 0xc33707d6, 0xf4d50d87, 0x455a14ed, 0xa9e3e905, 0xfcefa3f8,
   0x676f02d9, 0x8d2a4c8a, 0xfffa3942, 0x8771f681, 0x6d9d6122, 0xfde5380c,
   0xa4beea44, 0x4bdecfa9, 0xf6bb4b60, 0xbebfbc70, 0x289b7ec6, 0xeaa127fa,
   0xd4ef3085, 0x04881d05, 0xd9d4d039, 0xe6db99e5, 0x1fa27cf8, 0xc4ac5665,
   0xf4292244, 0x432aff97, 0xab9423a7, 0xfc93a039, 0x655b59c3, 0x8f0ccc92,
   0xffeff47d, 0x85845dd1, 0x6fa87e4f, 0xfe2ce6e0, 0xa3014314, 0x4e0811a1,
   0xf7537e82, 0xbd3af235, 0x2ad7d2bb, 0xeb86d391]

/-- The MD5 per-round left-rotation amounts. -/
def md5S : List Nat :=
  [7, 12, 17, 22, 7, 12, 17, 22, 7, 12, 17, 22, 7, 12, 17, 22,
   5, 9, 14, 20, 5, 9, 14, 20, 5, 9, 14, 20, 5, 9, 14, 20,
   4, 11, 16, 23, 4, 11, 16, 23, 4, 11, 16, 23, 4, 11, 16, 23,
   6, 10, 15, 21, 6, 10, 15, 21, 6, 10, 15, 21, 6, 10, 15, 21]

/-- Little-endian byte decomposition (`count` bytes). -/
def leBytes (n cnt : Nat) : List Nat :=
  (List.range cnt).map fun i => (n >>> (8 * i)) % 256

/-- MD5 padding: append `0x80`, zero-fill to 56 mod 64, then the bit length
as 8 little-endian bytes. -/
def md5Pad (msg : List Nat) : List Nat :=
  let z := (120 - ((msg.length + 1) % 64)) % 64
  msg ++ [0x80] ++ List.replicate z 0 ++ leBytes (msg.length * 8) 8

/-- The running MD5 state `(A, B, C, D)`. -/
structure MD5St where
  a : Nat
  b : Nat
  c : Nat
  d : Nat
deriving Repr, DecidableEq

/-- Little-endian 32-bit word `j` of a 64-byte block. -/
def blockWord (block : List Nat) (j : Nat) : Nat :=
  block.getD (4 * j) 0 + 256 * (block.getD (4 * j + 1) 0 +
    256 * (block.getD (4 * j + 2) 0 + 256 * block.getD (4 * j + 3) 0))

/-- One of the 64 MD5 rounds. -/
def md5Step (m : Nat → Nat) (st : MD5St) (i : Nat) : MD5St :=
  let fg :=
    if i < 16 then
      ((st.b &&& st.c) ||| ((0xFFFFFFFF ^^^ st.b) &&& st.d), i)
    else if i < 32 then
      ((st.d &&& st.b) ||| ((0xFFFFFFFF ^^^ st.d) &&& st.c), (5 * i + 1) % 16)
    else if i < 48 then
      (st.b ^^^ st.c ^^^ st.d, (3 * i + 5) % 16)
    else
      (st.c ^^^ (st.b ||| (0xFFFFFFFF ^^^ st.d)), (7 * i) % 16)
  let f2 := wadd (wadd (wadd fg.1 st.a) (md5K.getD i 0)) (m fg.2)
  ⟨st.d, wadd st.b (rotl f2 (md5S.getD i 0)), st.b, st.c⟩

/-- MD5 compression of one 64-byte block. -/
def md5Compress (st : MD5St) (block : List Nat) : MD5St :=
  let e := (List.range 64).foldl (md5Step (blockWord block)) st
  ⟨wadd st.a e.a, wadd st.b e.b, wadd st.c e.c, wadd st.d e.d⟩

/-- Accumulator-based splitting of a list into consecutive chunks of `n`
elements (last chunk possibly shorter); structurally recursive so that it
evaluates by kernel reduction. -/
def chunksAux (n : Nat) (cur : List α) : List α → List (List α)
  | [] => if cur.isEmpty then [] else [cur]
  | a :: rest =>
    let cur2 := cur ++ [a]
    if cur2.length = n then cur2 :: chunksAux n [] rest
    else chunksAux n cur2 rest

/-- Split a list into consecutive chunks of `n` elements (the last chunk may
be shorter). -/
def chunksOf (n : Nat) (l : List α) : List (List α) := chunksAux n [] l

/-- The MD5 initial state. -/
def md5Init : MD5St := ⟨0x67452301, 0xefcdab89, 0x98badcfe, 0x10325476⟩

/-- The 16-byte MD5 digest of a byte list: compress the 64-byte blocks of
the padded message in order. -/
def md5Digest (msg : List Nat) : List Nat :=
  let fin := (chunksOf 64 (md5Pad msg)).foldl md5Compress md5Init
  leBytes fin.a 4 ++ leBytes fin.b 4 ++ leBytes fin.c 4 ++ leBytes fin.d 4

/-- The lowercase hex characters. -/
def hexDigits : List Char := "0123456789abcdef".data

/-- Two lowercase hex characters of a byte. -/
def byteHexChars (b : Nat) : List Char :=
  [hexDigits.getD ((b / 16) % 16) '0', hexDigits.getD (b % 16) '0']

/-- The character list of `hashlib.md5(bytes).hexdigest()`. -/
def md5HexChars (msg : List Nat) : List Char :=
  ((md5Digest msg).map byteHexChars).flatten

/-- `hashlib.md5(bytes).hexdigest()` as a string. -/
def hexdigest (msg : List Nat) : String := ⟨md5HexChars msg⟩

/-- The lexicographic tuple comparison Python's `sorted` applies to the
`(key, value)` pairs of `kwargs.items()`. -/
def pairLe (a b : String × String) : Prop :=
  pyLt a.1 b.1 ∨ (a.1 = b.1 ∧ pyLe a.2 b.2)

instance : DecidableRel pairLe :=
  fun a b => inferInstanceAs (Decidable (_ ∨ _))

/-- The `key_parts` list of `_generate_key`: stringified positional
arguments followed by `"k=v"` for the keyword arguments sorted by
`sorted(kwargs.items())`.  Arguments are modelled as already-stringified
(`str(arg)` applied). -/
def key_parts (args : List String) (kwargs : List (String × String)) : List String :=
  args ++ (List.insertionSort pairLe kwargs).map fun kv => kv.1 ++ "=" ++ kv.2

/-- The `key_string` of `_generate_key`: `"|".join(key_parts)`. -/
def key_string (args : List String) (kwargs : List (String × String)) : String :=
  String.intercalate "|" (key_parts args kwargs)

/-- `CacheManager._generate_key(prefix, *args, **kwargs)`:
`f"rhythmbox:{prefix}:{md5(key_string)[:16]}"`. -/
def _generate_key (pre : String) (args : List String)
    (kwargs : List (String × String)) : String :=
  "rhythmbox:" ++ pre ++ ":" ++
    String.mk ((md5HexChars (utf8Encode (key_string args kwargs))).take 16)

/-! ### Helper definitions used by the verification statements -/

/-- The sort key the route applies under a given sort mode. -/
def modeKey (mode : String) (t : Track) : String :=
  if mode = "name-asc" ∨ mode = "name-desc" then sort_key_name t else sort_key_artist t

/-- The ordering the route's sort establishes under a given sort mode
(descending modes reverse the key comparison). -/
def modeRel (mode : String) (a b : Track) : Prop :=
  if mode = "name-desc" ∨ mode = "artist-desc" then
    pyLe (modeKey mode b) (modeKey mode a)
  else pyLe (modeKey mode a) (modeKey mode b)

/-- A track with a given name and no other data, for concrete test inputs. -/
def trackNamed (s : String) : Track := ⟨"", some s, none, "", "", "", none⟩

/-- A fixed sample track for concrete test inputs. -/
def sampleTrack : Track :=
  ⟨"id1", some "Name", some "Artist", "Album", "url", "img", none⟩

/-- Per-chunk outcome of the bulk existence check: the API's boolean list on
a well-formed response, `False` for every id of the chunk otherwise. -/
def degradeChunk (api : List String → ContainsResp) (c : List String) : List Bool :=
  match api c with
  | .ok r => r
  | _ => List.replicate c.length false

/-- 120 distinct track ids, for the chunking witness. -/
def c8ids : List String := (List.range 120).map fun i => "t" ++ toString i

/-- An existence-check API whose middle chunk (the one starting at id
`"t50"`) returns an invalid response while the others succeed with `True`
entries. -/
def c8api (c : List String) : ContainsResp :=
  if c.headD "" = "t50" then .invalid else .ok (c.map fun _ => true)

/-! ## Theorems -/

/-- Sorting does not change the number of tracks. -/
theorem length_sortTracks (s : String) (l : List Track) :
    (sortTracks s l).length = l.length := by
  unfold sortTracks
  split_ifs <;> first | rfl | exact (List.perm_insertionSort _ _).length_eq

/-- Claim C10: `FavoritesManager.get_saved_tracks` clamps rather than
rejects its parameters: the external call receives
`limit = max(1, min(50, limit))` and `offset = max(0, offset)`, the
effective parameters always lie in `[1,50]` and `[0,∞)`, and out-of-range
inputs behave exactly like their clamped counterparts (no
parameter-validation error path exists). -/
theorem c10_get_saved_tracks_clamps (limit offset : Int)
    (auth : Option String) (api : Int → Int → SavedTracksResp) :
    (auth = none →
      (get_saved_tracks limit offset auth api).2
        = some (max 1 (min 50 limit), max 0 offset))
    ∧ (∀ l o, (get_saved_tracks limit offset auth api).2 = some (l, o) →
        1 ≤ l ∧ l ≤ 50 ∧ 0 ≤ o)
    ∧ get_saved_tracks limit offset auth api
        = get_saved_tracks (max 1 (min 50 limit)) (max 0 offset) auth api := by
  have hidem : max 1 (min (50 : Int) (max 1 (min 50 limit)))
      = max 1 (min 50 limit) := by omega
  have hidem2 : max 0 (max 0 offset) = max 0 offset := by omega
  refine ⟨?_, ?_, ?_⟩
  · rintro rfl
    simp only [get_saved_tracks, MAX_TRACKS_PER_REQUEST]
    rcases hapi : api (max 1 (min 50 limit)) (max 0 offset)
      with e | _ | _ | items <;> simp [hapi]
  · intro l o h
    rcases auth with _ | e
    · simp only [get_saved_tracks, MAX_TRACKS_PER_REQUEST] at h
      rcases hapi : api (max 1 (min 50 limit)) (max 0 offset)
        with e | _ | _ | items <;>
        · rw [hapi] at h
          simp at h
          omega
    · simp [get_saved_tracks] at h
  · rcases auth with _ | e
    · simp only [get_saved_tracks, MAX_TRACKS_PER_REQUEST, hidem, hidem2]
    · rfl

/-- Witness for C10 at `limit=500, offset=-7`: the API call is made with
the clamped parameters. -/
theorem c10_witness :
    (get_saved_tracks 500 (-7) none (fun _ _ => SavedTracksResp.noItems)).2
      = some (max 1 (min 50 500), max 0 (-7)) ∧ max 1 (min (50 : Int) 500) = 50
      ∧ max (0 : Int) (-7) = 0 :=
  ⟨(c10_get_saved_tracks_clamps 500 (-7) none (fun _ _ => .noItems)).1 rfl,
    by decide, by decide⟩

/-- Claim C1: both favorites route handlers call the adapter's fetch-all
operation exactly when `limit > 1000` or `sort ≠ "default"`; otherwise they
call the paged fetch with the clamped `limit ∈ [20,100]` and
`offset = (page-1)*limit`. -/
theorem c1_branch_selection (page limit : Int) (sort : String)
    (getAll : List Track × Option String)
    (getPage : Int → Int → List Track × Option String)
    (getTotal : Int × Option String) (hp : 1 ≤ page) :
    ((api_favoritos page limit sort getAll getPage getTotal).2.fetchAllCalled = true
      ↔ (1000 < limit ∨ sort ≠ "default"))
    ∧ ((favoritos page limit sort getAll getPage getTotal).2.fetchAllCalled = true
      ↔ (1000 < limit ∨ sort ≠ "default"))
    ∧ ((1000 < limit ∨ sort ≠ "default") →
        (api_favoritos page limit sort getAll getPage getTotal).2.pagedCall = none
        ∧ (favoritos page limit sort getAll getPage getTotal).2.pagedCall = none)
    ∧ (¬(1000 < limit ∨ sort ≠ "default") →
        (api_favoritos page limit sort getAll getPage getTotal).2.pagedCall
          = some (min (max 20 limit) 100, (page - 1) * min (max 20 limit) 100)
        ∧ (favoritos page limit sort getAll getPage getTotal).2.pagedCall
          = some (min (max 20 limit) 100, (page - 1) * min (max 20 limit) 100)) := by
  rcases getAll with ⟨ts, er⟩
  by_cases hl : (1000 : Int) < limit
  · cases er <;> simp [api_favoritos, favoritos, hl]
  · by_cases hs : sort = "default"
    · subst hs
      have hmax : max 1 page = page := by omega
      rcases hpg : getPage (min (max 20 limit) 100)
          ((page - 1) * min (max 20 limit) 100) with ⟨ts2, er2⟩
      rcases hgt : getTotal with ⟨t0, terr⟩
      cases er2 <;> cases terr <;>
        simp [api_favoritos, favoritos, hl, hmax, hpg, hgt]
    · cases er <;> simp [api_favoritos, favoritos, hl, hs]

/-- Witness for C1 at `page=1, limit=20, sort="default"`: the paged branch
is taken with the clamped call `(20, 0)`. -/
theorem c1_witness :
    (((api_favoritos 1 20 "default" ([], none) (fun _ _ => ([], none))
          (0, none)).2.fetchAllCalled = true
        ↔ ((1000 : Int) < 20 ∨ ("default" : String) ≠ "default"))
      ∧ ((favoritos 1 20 "default" ([], none) (fun _ _ => ([], none))
          (0, none)).2.fetchAllCalled = true
        ↔ ((1000 : Int) < 20 ∨ ("default" : String) ≠ "default"))
      ∧ (((1000 : Int) < 20 ∨ ("default" : String) ≠ "default") →
          (api_favoritos 1 20 "default" ([], none) (fun _ _ => ([], none))
            (0, none)).2.pagedCall = none
          ∧ (favoritos 1 20 "default" ([], none) (fun _ _ => ([], none))
            (0, none)).2.pagedCall = none)
      ∧ (¬((1000 : Int) < 20 ∨ ("default" : String) ≠ "default") →
          (api_favoritos 1 20 "default" ([], none) (fun _ _ => ([], none))
            (0, none)).2.pagedCall
            = some (min (max 20 20) 100, (1 - 1) * min (max 20 20) 100)
          ∧ (favoritos 1 20 "default" ([], none) (fun _ _ => ([], none))
            (0, none)).2.pagedCall
            = some (min (max 20 20) 100, (1 - 1) * min (max 20 20) 100)))
      ∧ min (max (20 : Int) 20) 100 = 20 :=
  ⟨c1_branch_selection 1 20 "default" ([], none) (fun _ _ => ([], none))
    (0, none) (by decide), by decide⟩

/-- Claim C2 (amended): for raw `limit > 1000` with a successful fetch, the
JSON API endpoint returns the entire sorted sequence unsliced with
`page = 1`, `total_pages = 1` and reported `limit` equal to the true total;
the HTML route also returns the entire sorted sequence with `page = 1` but
reports the constant `9999` as `limit`, not the true total. -/
theorem c2_fetch_all_sentinel (page limit : Int) (sort : String)
    (tracks : List Track)
    (getPage : Int → Int → List Track × Option String)
    (getTotal : Int × Option String) (hl : 1000 < limit) :
    (api_favoritos page limit sort (tracks, none) getPage getTotal).1
      = .success ((sortTracks sort tracks).map trackOut) tracks.length 1
          tracks.length 1
    ∧ (favoritos page limit sort (tracks, none) getPage getTotal).1
      = ⟨sortTracks sort tracks, none, tracks.length, 1, 9999, sort⟩ := by
  have hc : (1000 < limit ∨ sort ≠ "default") := Or.inl hl
  have hlen := length_sortTracks sort tracks
  constructor <;> simp [api_favoritos, favoritos, hc, hl, hlen]

/-- Witness for C2 (amended) at `limit=5000` over a one-track library. -/
theorem c2_witness :
    ((api_favoritos 1 5000 "default" ([sampleTrack], none)
          (fun _ _ => ([], none)) (0, none)).1
        = .success ((sortTracks "default" [sampleTrack]).map trackOut)
            (([sampleTrack] : List Track).length) 1
            (([sampleTrack] : List Track).length) 1
      ∧ (favoritos 1 5000 "default" ([sampleTrack], none)
          (fun _ _ => ([], none)) (0, none)).1
        = ⟨sortTracks "default" [sampleTrack], none,
            (([sampleTrack] : List Track).length), 1, 9999, "default"⟩)
      ∧ (([sampleTrack] : List Track).length : Int) = 1 :=
  ⟨c2_fetch_all_sentinel 1 5000 "default" [sampleTrack]
    (fun _ _ => ([], none)) (0, none) (by decide), by decide⟩

/-- Counterexample for C2 as frozen: on the HTML `/favoritos` route a
`limit=5000` request over a 3-track library reports `limit = 9999`, not the
true total `3` — the claim's "the reported limit equal to the true total
number of tracks" fails for this favorites page request. -/
theorem c2_counterexample :
    ((favoritos 1 5000 "default"
        ([trackNamed "a", trackNamed "b", trackNamed "c"], none)
        (fun _ _ => ([], none)) (0, none)).1).limit = 9999
    ∧ ((favoritos 1 5000 "default"
        ([trackNamed "a", trackNamed "b", trackNamed "c"], none)
        (fun _ _ => ([], none)) (0, none)).1).total = 3
    ∧ (9999 : Int) ≠ 3 := by
  refine ⟨by decide, by decide, by decide⟩

/-- Claim C3: for a non-default sort with raw `limit ≤ 1000`, the API route
clamps `limit` to `[20,100]`, returns exactly the slice
`[(page-1)*limit : (page-1)*limit + limit]` of the fully sorted sequence,
and reports `total_pages = (total + limit - 1) // limit`. -/
theorem c3_custom_sort_paging (page limit : Int) (sort : String)
    (tracks : List Track)
    (getPage : Int → Int → List Track × Option String)
    (getTotal : Int × Option String)
    (hs : sort ≠ "default") (hl : limit ≤ 1000) (hp : 1 ≤ page) :
    (api_favoritos page limit sort (tracks, none) getPage getTotal).1
      = .success ((((sortTracks sort tracks).drop
              (((page - 1) * min (max 20 limit) 100).toNat)).take
            ((min (max 20 limit) 100).toNat)).map trackOut)
          tracks.length page (min (max 20 limit) 100)
          (Int.fdiv ((tracks.length : Int) + min (max 20 limit) 100 - 1)
            (min (max 20 limit) 100))
    ∧ 20 ≤ min (max 20 limit) 100 ∧ min (max 20 limit) 100 ≤ 100 := by
  have hc : (1000 < limit ∨ sort ≠ "default") := Or.inr hs
  have hng : ¬(1000 : Int) < limit := by omega
  have hmax : max 1 page = page := by omega
  have hlen := length_sortTracks sort tracks
  refine ⟨?_, by omega, by omega⟩
  simp [api_favoritos, hc, hng, hmax, hlen, hs]

/-- Witness for C3: the spec's example — 57 tracks, `sort="artist-asc"`,
`limit=20`, `page=2` — slices indexes `[20:40)` and reports
`total_pages = 3`. -/
theorem c3_witness :
    ((api_favoritos 2 20 "artist-asc" (List.replicate 57 sampleTrack, none)
          (fun _ _ => ([], none)) (0, none)).1
        = .success ((((sortTracks "artist-asc"
                  (List.replicate 57 sampleTrack)).drop
                ((((2 : Int) - 1) * min (max 20 20) 100).toNat)).take
              ((min (max (20 : Int) 20) 100).toNat)).map trackOut)
            ((List.replicate 57 sampleTrack : List Track).length) 2
            (min (max 20 20) 100)
            (Int.fdiv (((List.replicate 57 sampleTrack : List Track).length : Int)
                + min (max 20 20) 100 - 1) (min (max 20 20) 100))
      ∧ 20 ≤ min (max (20 : Int) 20) 100 ∧ min (max (20 : Int) 20) 100 ≤ 100)
      ∧ Int.fdiv (((List.replicate 57 sampleTrack : List Track).length : Int)
          + min (max 20 20) 100 - 1) (min (max 20 20) 100) = 3
      ∧ ((((2 : Int) - 1) * min (max (20 : Int) 20) 100).toNat = 20
          ∧ (min (max (20 : Int) 20) 100).toNat = 20) :=
  ⟨c3_custom_sort_paging 2 20 "artist-asc" (List.replicate 57 sampleTrack)
      (fun _ _ => ([], none)) (0, none) (by decide) (by decide) (by decide),
    by rw [List.length_replicate]; decide, by decide⟩

/-- `strLt` is irreflexive. -/
theorem strLt_irrefl : ∀ x : List Char, strLt x x = false
  | [] => rfl
  | a :: as => by simp [strLt, Nat.lt_irrefl, strLt_irrefl as]

/-- `pyLe` is reflexive. -/
theorem pyLe_refl (s : String) : pyLe s s := strLt_irrefl s.data

/-- `strLt` is asymmetric. -/
theorem strLt_asymm : ∀ x y : List Char, strLt x y = true → strLt y x = false
  | [], [] => by simp [strLt]
  | [], _ :: _ => by simp [strLt]
  | _ :: _, [] => by simp [strLt]
  | a :: as, b :: bs => by
    by_cases h1 : a.toNat < b.toNat
    · have h2 : ¬b.toNat < a.toNat := by omega
      simp [strLt, h1, h2]
    · by_cases h2 : b.toNat < a.toNat
      · simp [strLt, h1, h2]
      · simp only [strLt, if_neg h1, if_neg h2]
        exact strLt_asymm as bs

/-- Transitivity of the negation of `strLt` (that is, of Python `<=`). -/
theorem strLt_le_trans : ∀ x y z : List Char,
    strLt y x = false → strLt z y = false → strLt z x = false := by
  intro x
  induction x with
  | nil =>
    intro y z h1 h2
    cases z <;> simp [strLt]
  | cons a as ih =>
    intro y z h1 h2
    cases y with
    | nil => simp [strLt] at h1
    | cons b bs =>
      cases z with
      | nil => simp [strLt] at h2
      | cons c cs =>
        simp only [strLt] at h1 h2 ⊢
        by_cases hba : b.toNat < a.toNat
        · simp [hba] at h1
        · by_cases hcb : c.toNat < b.toNat
          · simp [hcb] at h2
          · by_cases hca : c.toNat < a.toNat
            · omega
            · rw [if_neg hca]
              by_cases hac : a.toNat < c.toNat
              · simp [hac]
              · have hab : ¬a.toNat < b.toNat := by omega
                have hbc : ¬b.toNat < c.toNat := by omega
                rw [if_neg hba, if_neg hab] at h1
                rw [if_neg hcb, if_neg hbc] at h2
                rw [if_neg hac]
                exact ih bs cs h1 h2

/-- Transitivity of `strLt`. -/
theorem strLt_trans : ∀ x y z : List Char,
    strLt x y = true → strLt y z = true → strLt x z = true := by
  intro x
  induction x with
  | nil =>
    intro y z h1 h2
    cases y with
    | nil => simp [strLt] at h1
    | cons b bs =>
      cases z with
      | nil => simp [strLt] at h2
      | cons c cs => simp [strLt]
  | cons a as ih =>
    intro y z h1 h2
    cases y with
    | nil => simp [strLt] at h1
    | cons b bs =>
      cases z with
      | nil => simp [strLt] at h2
      | cons c cs =>
        simp only [strLt] at h1 h2 ⊢
        by_cases hab : a.toNat < b.toNat
        · by_cases hbc : b.toNat < c.toNat
          · have hac : a.toNat < c.toNat := by omega
            simp [hac]
          · by_cases hcb : c.toNat < b.toNat
            · simp [hcb] at h2
              omega
            · have hac : a.toNat < c.toNat := by omega
              simp [hac]
        · by_cases hba : b.toNat < a.toNat
          · simp [hab, hba] at h1
          · by_cases hbc : b.toNat < c.toNat
            · have hac : a.toNat < c.toNat := by omega
              simp [hac]
            · by_cases hcb : c.toNat < b.toNat
              · simp [hcb] at h2
                omega
              · have hac : ¬a.toNat < c.toNat := by omega
                have hca : ¬c.toNat < a.toNat := by omega
                rw [if_neg hab, if_neg hba] at h1
                rw [if_neg hbc, if_neg hcb] at h2
                rw [if_neg hac, if_neg hca]
                exact ih bs cs h1 h2

/-- Antisymmetry: two code-point sequences neither of which is smaller are
equal. -/
theorem strLt_antisymm : ∀ x y : List Char,
    strLt x y = false → strLt y x = false → x = y := by
  intro x
  induction x with
  | nil =>
    intro y h1 h2
    cases y with
    | nil => rfl
    | cons b bs => simp [strLt] at h1
  | cons a as ih =>
    intro y h1 h2
    cases y with
    | nil => simp [strLt] at h2
    | cons b bs =>
      simp only [strLt] at h1 h2
      by_cases hab : a.toNat < b.toNat
      · simp [hab] at h1
      · by_cases hba : b.toNat < a.toNat
        · simp [hba] at h2
        · rw [if_neg hab, if_neg hba] at h1
          rw [if_neg hba, if_neg hab] at h2
          have hchar : a = b := by
            have hnat : a.toNat = b.toNat := by omega
            exact Char.eq_of_val_eq (UInt32.ext hnat)
          rw [hchar, ih bs h1 h2]

/-- `pyLe` is total. -/
theorem pyLe_total (a b : String) : pyLe a b ∨ pyLe b a := by
  by_cases h : strLt b.data a.data = true
  · exact Or.inr (strLt_asymm _ _ h)
  · exact Or.inl (by simpa [pyLe, Bool.not_eq_true] using h)

/-- Strings with equal code-point sequences are equal. -/
theorem str_ext {a b : String} (h : a.data = b.data) : a = b := by
  cases a
  cases b
  exact congrArg String.mk h

instance : IsTotal Track nameLe := ⟨fun _ _ => pyLe_total _ _⟩

instance : IsTrans Track nameLe :=
  ⟨fun _ _ _ h1 h2 => strLt_le_trans _ _ _ h1 h2⟩

instance : IsTotal Track nameGe := ⟨fun _ _ => pyLe_total _ _⟩

instance : IsTrans Track nameGe :=
  ⟨fun _ _ _ h1 h2 => strLt_le_trans _ _ _ h2 h1⟩

instance : IsTotal Track artistLe := ⟨fun _ _ => pyLe_total _ _⟩

instance : IsTrans Track artistLe :=
  ⟨fun _ _ _ h1 h2 => strLt_le_trans _ _ _ h1 h2⟩

instance : IsTotal Track artistGe := ⟨fun _ _ => pyLe_total _ _⟩

instance : IsTrans Track artistGe :=
  ⟨fun _ _ _ h1 h2 => strLt_le_trans _ _ _ h2 h1⟩

/-- Equal keys relate under `nameLe` (needed for stability). -/
theorem nameLe_of_key_eq {a b : Track}
    (h : sort_key_name a = sort_key_name b) : nameLe a b := by
  show pyLe (sort_key_name a) (sort_key_name b)
  rw [h]
  exact pyLe_refl _

/-- Equal keys relate under `nameGe`. -/
theorem nameGe_of_key_eq {a b : Track}
    (h : sort_key_name a = sort_key_name b) : nameGe a b := by
  show pyLe (sort_key_name b) (sort_key_name a)
  rw [h]
  exact pyLe_refl _

/-- Equal keys relate under `artistLe`. -/
theorem artistLe_of_key_eq {a b : Track}
    (h : sort_key_artist a = sort_key_artist b) : artistLe a b := by
  show pyLe (sort_key_artist a) (sort_key_artist b)
  rw [h]
  exact pyLe_refl _

/-- Equal keys relate under `artistGe`. -/
theorem artistGe_of_key_eq {a b : Track}
    (h : sort_key_artist a = sort_key_artist b) : artistGe a b := by
  show pyLe (sort_key_artist b) (sort_key_artist a)
  rw [h]
  exact pyLe_refl _

/-- Inserting an element into a sorted list under a key-based total preorder
leaves the subsequence of any fixed key value intact, with the new element
in front of its equals exactly when its key matches. -/
theorem filter_key_orderedInsert {α : Type} (key : α → String)
    (r : α → α → Prop) [DecidableRel r]
    (hkey : ∀ a b, key a = key b → r a b) (k : String) (a : α) (l : List α) :
    (l.orderedInsert r a).filter (fun x => key x == k)
      = if key a == k then a :: l.filter (fun x => key x == k)
        else l.filter (fun x => key x == k) := by
  rw [List.orderedInsert_eq_take_drop, List.filter_append, List.filter_cons]
  by_cases hak : (key a == k) = true
  · have htake : (l.takeWhile fun b => ¬r a b).filter (fun x => key x == k)
        = [] := by
      rw [List.filter_eq_nil_iff]
      intro x hx hxk
      have hrx := List.mem_takeWhile_imp hx
      simp only [decide_not, Bool.not_eq_true', decide_eq_false_iff_not] at hrx
      have hk : key a = k := by simpa using hak
      have hxk2 : key x = k := by simpa using hxk
      exact hrx (hkey a x (hk.trans hxk2.symm))
    rw [htake, if_pos hak, if_pos hak]
    have hsplit := List.takeWhile_append_dropWhile
      (p := fun b => decide ¬r a b) (l := l)
    conv_rhs => rw [← hsplit]
    rw [List.filter_append, htake]
    simp
  · rw [if_neg hak, if_neg hak]
    have hsplit := List.takeWhile_append_dropWhile
      (p := fun b => decide ¬r a b) (l := l)
    conv_rhs => rw [← hsplit]
    rw [List.filter_append]

/-- Stability of insertion sort under a key-based total preorder: sorting
does not change the subsequence of elements with any fixed key value. -/
theorem filter_key_insertionSort {α : Type} (key : α → String)
    (r : α → α → Prop) [DecidableRel r]
    (hkey : ∀ a b, key a = key b → r a b) (k : String) (l : List α) :
    (List.insertionSort r l).filter (fun x => key x == k)
      = l.filter (fun x => key x == k) := by
  induction l with
  | nil => rfl
  | cons a l ih =>
    rw [List.insertionSort, filter_key_orderedInsert key r hkey k a _, ih,
      List.filter_cons]

/-- Claim C4: for each of the four sort modes the favorites sort orders the
tracks by case-insensitive comparison of the named field (missing/`None`
fields acting as the empty string), permutes the input, and is stable —
the subsequence of tracks with any fixed case-folded key is unchanged.  The
spec's concrete example sorts `[b, A, a2]` into `[A, a2, b]` by name. -/
theorem c4_sort_semantics (mode : String) (tracks : List Track)
    (hm : mode = "name-asc" ∨ mode = "name-desc" ∨ mode = "artist-asc"
      ∨ mode = "artist-desc") :
    (sortTracks mode tracks).Sorted (modeRel mode)
    ∧ (sortTracks mode tracks).Perm tracks
    ∧ (∀ k, (sortTracks mode tracks).filter (fun t => modeKey mode t == k)
        = tracks.filter (fun t => modeKey mode t == k))
    ∧ (∀ t : Track, t.name = none → sort_key_name t = casefold "")
    ∧ ((sortTracks "name-asc"
          [trackNamed "b", trackNamed "A", trackNamed "a2"]).map Track.name
        = [some "A", some "a2", some "b"]) := by
  have hmiss : ∀ t : Track, t.name = none → sort_key_name t = casefold "" := by
    intro t ht
    simp [sort_key_name, ht]
  have hconc : (sortTracks "name-asc"
      [trackNamed "b", trackNamed "A", trackNamed "a2"]).map Track.name
      = [some "A", some "a2", some "b"] := by decide
  rcases hm with rfl | rfl | rfl | rfl
  · refine ⟨?_, ?_, ?_, hmiss, hconc⟩
    · have hs : sortTracks "name-asc" tracks
          = List.insertionSort nameLe tracks := by simp [sortTracks]
      rw [hs]
      refine (List.sorted_insertionSort nameLe tracks).imp ?_
      intro a b hab
      simpa [modeRel, modeKey, nameLe] using hab
    · simpa [sortTracks] using List.perm_insertionSort nameLe tracks
    · intro k
      simpa [sortTracks, modeKey] using
        filter_key_insertionSort sort_key_name nameLe
          (fun _ _ h => nameLe_of_key_eq h) k tracks
  · refine ⟨?_, ?_, ?_, hmiss, hconc⟩
    · have hs : sortTracks "name-desc" tracks
          = List.insertionSort nameGe tracks := by simp [sortTracks]
      rw [hs]
      refine (List.sorted_insertionSort nameGe tracks).imp ?_
      intro a b hab
      simpa [modeRel, modeKey, nameGe] using hab
    · simpa [sortTracks] using List.perm_insertionSort nameGe tracks
    · intro k
      simpa [sortTracks, modeKey] using
        filter_key_insertionSort sort_key_name nameGe
          (fun _ _ h => nameGe_of_key_eq h) k tracks
  · refine ⟨?_, ?_, ?_, hmiss, hconc⟩
    · have hs : sortTracks "artist-asc" tracks
          = List.insertionSort artistLe tracks := by simp [sortTracks]
      rw [hs]
      refine (List.sorted_insertionSort artistLe tracks).imp ?_
      intro a b hab
      simpa [modeRel, modeKey, artistLe] using hab
    · simpa [sortTracks] using List.perm_insertionSort artistLe tracks
    · intro k
      simpa [sortTracks, modeKey] using
        filter_key_insertionSort sort_key_artist artistLe
          (fun _ _ h => artistLe_of_key_eq h) k tracks
  · refine ⟨?_, ?_, ?_, hmiss, hconc⟩
    · have hs : sortTracks "artist-desc" tracks
          = List.insertionSort artistGe tracks := by simp [sortTracks]
      rw [hs]
      refine (List.sorted_insertionSort artistGe tracks).imp ?_
      intro a b hab
      simpa [modeRel, modeKey, artistGe] using hab
    · simpa [sortTracks] using List.perm_insertionSort artistGe tracks
    · intro k
      simpa [sortTracks, modeKey] using
        filter_key_insertionSort sort_key_artist artistGe
          (fun _ _ h => artistGe_of_key_eq h) k tracks

/-- Witness for C4 at `mode="name-asc"` on the spec's example list. -/
theorem c4_witness :
    ((sortTracks "name-asc" [trackNamed "b", trackNamed "A", trackNamed "a2"]).Sorted
        (modeRel "name-asc")
      ∧ (sortTracks "name-asc"
          [trackNamed "b", trackNamed "A", trackNamed "a2"]).Perm
          [trackNamed "b", trackNamed "A", trackNamed "a2"]
      ∧ (∀ k, (sortTracks "name-asc"
            [trackNamed "b", trackNamed "A", trackNamed "a2"]).filter
            (fun t => modeKey "name-asc" t == k)
          = [trackNamed "b", trackNamed "A", trackNamed "a2"].filter
            (fun t => modeKey "name-asc" t == k))
      ∧ (∀ t : Track, t.name = none → sort_key_name t = casefold "")
      ∧ ((sortTracks "name-asc"
            [trackNamed "b", trackNamed "A", trackNamed "a2"]).map Track.name
          = [some "A", some "a2", some "b"])) :=
  c4_sort_semantics "name-asc" [trackNamed "b", trackNamed "A", trackNamed "a2"]
    (Or.inl rfl)

/-- Claim C9: in the paged branch (`limit ≤ 1000`, default sort), when the
page fetch succeeds and the total-count call errors, both route handlers
report `total = len(page_tracks)` and surface no error (the API route
returns a success payload, the HTML route renders with `error=None`). -/
theorem c9_total_count_fallback (page limit : Int) (sort : String)
    (getAll : List Track × Option String) (tracks : List Track)
    (t0 : Int) (e : String)
    (hs : sort = "default") (hl : limit ≤ 1000) :
    (api_favoritos page limit sort getAll (fun _ _ => (tracks, none))
        (t0, some e)).1
      = .success (tracks.map trackOut) tracks.length (max 1 page)
          (min (max 20 limit) 100)
          (Int.fdiv ((tracks.length : Int) + min (max 20 limit) 100 - 1)
            (min (max 20 limit) 100))
    ∧ (favoritos page limit sort getAll (fun _ _ => (tracks, none))
        (t0, some e)).1
      = ⟨tracks, none, tracks.length, max 1 page, min (max 20 limit) 100, sort⟩ := by
  subst hs
  have hng : ¬(1000 : Int) < limit := by omega
  constructor <;> simp [api_favoritos, favoritos, hng]

/-- Witness for C9: a successful 15-track page fetch with a failing
total-count yields `total = 15` and no error. -/
theorem c9_witness :
    (api_favoritos 1 20 "default" ([], none)
        (fun _ _ => (List.replicate 15 sampleTrack, none)) (0, some "boom")).1
      = .success ((List.replicate 15 sampleTrack).map trackOut)
          (List.replicate 15 sampleTrack).length (max 1 1) (min (max 20 20) 100)
          (Int.fdiv (((List.replicate 15 sampleTrack).length : Int)
              + min (max 20 20) 100 - 1) (min (max 20 20) 100))
      ∧ ((List.replicate 15 sampleTrack).length : Int) = 15 :=
  ⟨(c9_total_count_fallback 1 20 "default" ([], none)
      (List.replicate 15 sampleTrack) 0 "boom" rfl (by decide)).1, by simp⟩

/-- Claim C5 (amended): the memoizing wrapper returns a cached hit without
invoking the wrapped operation; on a miss or when the cache is disabled it
invokes the operation and returns its result; the result is stored (with
the configured TTL) exactly when it is not `None` — empty-but-non-`None`
results are stored too; a failing `set` never changes the returned result;
and a second invocation with identical arguments while the cache is enabled
(non-`None` result, working store) does not invoke the operation again. -/
theorem c5_cache_result_memoizes (α : Type) (key : String) (ttl : Nat)
    (f : Option α) (st : CacheSt α) :
    (∀ v, st.enabled = true → cache_get st key = some v →
        cache_result_call key ttl f st = ((some v, st), false))
    ∧ ((st.enabled = false ∨ cache_get st key = none) →
        (cache_result_call key ttl f st).2 = true
          ∧ (cache_result_call key ttl f st).1.1 = f)
    ∧ (st.enabled = true → cache_get st key = none → st.setFails = false →
        (∀ v, f = some v →
          (cache_result_call key ttl f st).1.2.store key = some (v, some ttl))
        ∧ (f = none → (cache_result_call key ttl f st).1.2 = st))
    ∧ (∀ b : Bool, (cache_result_call key ttl f { st with setFails := b }).1.1
        = (cache_result_call key ttl f st).1.1)
    ∧ (∀ v, st.enabled = true → st.setFails = false → f = some v →
        (cache_result_call key ttl f
          (cache_result_call key ttl f st).1.2).2 = false) := by
  obtain ⟨store, enabled, setFails⟩ := st
  refine ⟨?_, ?_, ?_, ?_, ?_⟩
  · rintro v rfl hget
    simp [cache_result_call, hget]
  · intro h
    rcases h with h | h
    · subst h
      simp [cache_result_call]
    · cases enabled
      · simp [cache_result_call]
      · cases f <;> simp [cache_result_call, h]
  · rintro rfl hget rfl
    constructor
    · rintro v rfl
      simp [cache_result_call, hget, cache_set]
    · rintro rfl
      simp [cache_result_call, hget]
  · intro b
    cases enabled
    · simp [cache_result_call]
    · rcases hget : cache_get ⟨store, true, setFails⟩ key with _ | v
      · have hget2 : cache_get ⟨store, true, b⟩ key = none := hget
        cases f <;> simp [cache_result_call, hget, hget2]
      · have hget2 : cache_get ⟨store, true, b⟩ key = some v := hget
        simp [cache_result_call, hget, hget2]
  · rintro v rfl rfl rfl
    rcases hget : cache_get ⟨store, true, false⟩ key with _ | w
    · have hsk : store key = none := by simpa [cache_get] using hget
      simp [cache_result_call, cache_get, cache_set, hsk]
    · simp [cache_result_call, hget]

/-- Witness for C5 at a concrete cache state: a fresh enabled cache misses,
invokes the operation once, stores the value, and the second identical
invocation does not invoke the operation. -/
theorem c5_witness :
    (cache_result_call "k" 300 (some 42)
        (cache_result_call "k" 300 (some 42)
          (⟨fun _ => none, true, false⟩ : CacheSt Nat)).1.2).2 = false :=
  (c5_cache_result_memoizes Nat "k" 300 (some 42)
      ⟨fun _ => none, true, false⟩).2.2.2.2 42 rfl rfl rfl

/-- Counterexample for C5 as frozen: the wrapper stores any non-`None`
result, including empty ones.  With an enabled cache and an operation
returning the empty list (an "empty" but non-`None` value), the value is
stored — the claim's "stored if and only if the result is not empty/null"
predicts it would not be. -/
theorem c5_counterexample :
    (cache_result_call "k" 300 (some ([] : List Nat))
        (⟨fun _ => none, true, false⟩ : CacheSt (List Nat))).1.2.store "k"
      = some ([], some 300) := by
  decide

instance : IsTotal (String × String) pairLe := ⟨by
  intro a b
  by_cases h1 : strLt a.1.data b.1.data = true
  · exact Or.inl (Or.inl h1)
  · by_cases h2 : strLt b.1.data a.1.data = true
    · exact Or.inr (Or.inl h2)
    · have h1' : strLt a.1.data b.1.data = false := by simpa using h1
      have h2' : strLt b.1.data a.1.data = false := by simpa using h2
      have he : a.1 = b.1 := str_ext (strLt_antisymm _ _ h1' h2')
      rcases pyLe_total a.2 b.2 with h | h
      · exact Or.inl (Or.inr ⟨he, h⟩)
      · exact Or.inr (Or.inr ⟨he.symm, h⟩)⟩

instance : IsTrans (String × String) pairLe := ⟨by
  intro a b c hab hbc
  rcases hab with h1 | ⟨he1, hl1⟩
  · rcases hbc with h2 | ⟨he2, hl2⟩
    · exact Or.inl (strLt_trans _ _ _ h1 h2)
    · exact Or.inl (he2 ▸ h1)
  · rcases hbc with h2 | ⟨he2, hl2⟩
    · exact Or.inl (he1.symm ▸ h2)
    · exact Or.inr ⟨he1.trans he2, strLt_le_trans _ _ _ hl1 hl2⟩⟩

instance : IsAntisymm (String × String) pairLe := ⟨by
  intro a b hab hba
  rcases hab with h1 | ⟨he1, hl1⟩
  · rcases hba with h2 | ⟨he2, hl2⟩
    · have := strLt_asymm _ _ h1
      rw [h2] at this
      cases this
    · rw [he2] at h1
      have h1' : strLt a.1.data a.1.data = true := h1
      rw [strLt_irrefl] at h1'
      cases h1' 
  · rcases hba with h2 | ⟨he2, hl2⟩
    · rw [he1] at h2
      have h2' : strLt b.1.data b.1.data = true := h2
      rw [strLt_irrefl] at h2'
      cases h2' 
    · exact Prod.ext_iff.mpr
        ⟨he1, str_ext (strLt_antisymm _ _ hl2 hl1)⟩⟩

/-- Permuting the keyword-argument pairs leaves `sorted(kwargs.items())`
unchanged. -/
theorem sortPairs_perm_eq (k1 k2 : List (String × String)) (h : k1.Perm k2) :
    List.insertionSort pairLe k1 = List.insertionSort pairLe k2 :=
  List.eq_of_perm_of_sorted
    ((List.perm_insertionSort pairLe k1).trans
      (h.trans (List.perm_insertionSort pairLe k2).symm))
    (List.sorted_insertionSort pairLe k1)
    (List.sorted_insertionSort pairLe k2)

/-- `leBytes` produces exactly `cnt` bytes. -/
theorem length_leBytes (n cnt : Nat) : (leBytes n cnt).length = cnt := by
  simp [leBytes]

/-- An MD5 digest is 16 bytes. -/
theorem length_md5Digest (m : List Nat) : (md5Digest m).length = 16 := by
  simp [md5Digest, length_leBytes]

/-- Two hex characters per byte. -/
theorem length_flatten_byteHexChars (l : List Nat) :
    ((l.map byteHexChars).flatten).length = 2 * l.length := by
  induction l with
  | nil => rfl
  | cons a l ih =>
    simp only [List.map_cons, List.flatten_cons, List.length_append, ih,
      List.length_cons, byteHexChars, List.length_nil]
    omega

/-- An MD5 hexdigest is 32 characters. -/
theorem length_md5HexChars (m : List Nat) : (md5HexChars m).length = 32 := by
  rw [md5HexChars, length_flatten_byteHexChars, length_md5Digest]

/-- Looking up a reduced index in the hex alphabet yields a hex character. -/
theorem hexDigits_getD_mem (n : Nat) : hexDigits.getD (n % 16) '0' ∈ hexDigits := by
  have h : n % 16 < hexDigits.length := by
    have h16 : n % 16 < 16 := Nat.mod_lt _ (by norm_num)
    simpa [hexDigits] using h16
  rw [List.getD_eq_getElem _ _ h]
  exact List.getElem_mem h

/-- Both characters of a byte's hex form are hex characters. -/
theorem byteHexChars_mem (b : Nat) : ∀ c ∈ byteHexChars b, c ∈ hexDigits := by
  intro c hc
  simp only [byteHexChars, List.mem_cons, List.not_mem_nil, or_false] at hc
  rcases hc with rfl | rfl
  · exact hexDigits_getD_mem _
  · exact hexDigits_getD_mem _

/-- Every character of an MD5 hexdigest is a hex character. -/
theorem md5HexChars_mem (m : List Nat) : ∀ c ∈ md5HexChars m, c ∈ hexDigits := by
  intro c hc
  simp only [md5HexChars, List.mem_flatten] at hc
  obtain ⟨l, hl, hcl⟩ := hc
  simp only [List.mem_map] at hl
  obtain ⟨b, _, rfl⟩ := hl
  exact byteHexChars_mem b c hcl

/-- Claim C6 (amended): the cache key function is a pure function of its
arguments (so identical arguments give the identical string); permuting the
keyword arguments yields the same key; every key has the shape
`"rhythmbox:<prefix>:<16-hex-char-digest>"`; and the spec's concrete
positional-order example (`"abc","def"` vs `"def","abc"`) yields different
keys — though argument strings containing the `"|"` separator can make two
distinct positional orders collide, so the universal form of that clause
fails (see the counterexample). -/
theorem c6_generate_key (pre : String) (args : List String)
    (kwargs kwargs2 : List (String × String)) (hperm : kwargs.Perm kwargs2) :
    _generate_key pre args kwargs = _generate_key pre args kwargs2
    ∧ _generate_key pre args kwargs
        = "rhythmbox:" ++ pre ++ ":"
          ++ String.mk ((md5HexChars (utf8Encode (key_string args kwargs))).take 16)
    ∧ ((md5HexChars (utf8Encode (key_string args kwargs))).take 16).length = 16
    ∧ (∀ c ∈ (md5HexChars (utf8Encode (key_string args kwargs))).take 16,
        c ∈ hexDigits)
    ∧ _generate_key "search" ["abc", "def"] []
        ≠ _generate_key "search" ["def", "abc"] [] := by
  refine ⟨?_, rfl, ?_, ?_, by decide⟩
  · unfold _generate_key key_string key_parts
    rw [sortPairs_perm_eq kwargs kwargs2 hperm]
  · simp [List.length_take, length_md5HexChars]
  · intro c hc
    exact md5HexChars_mem _ c (List.mem_of_mem_take hc)

/-- Witness for C6 on `key_for("search", "abc", limit=5, q="x")` with the
two keyword orders. -/
theorem c6_witness :
    (_generate_key "search" ["abc"] [("limit", "5"), ("q", "x")]
        = _generate_key "search" ["abc"] [("q", "x"), ("limit", "5")]
      ∧ _generate_key "search" ["abc"] [("limit", "5"), ("q", "x")]
          = "rhythmbox:" ++ "search" ++ ":"
            ++ String.mk ((md5HexChars (utf8Encode
                (key_string ["abc"] [("limit", "5"), ("q", "x")]))).take 16)
      ∧ ((md5HexChars (utf8Encode
            (key_string ["abc"] [("limit", "5"), ("q", "x")]))).take 16).length
          = 16
      ∧ (∀ c ∈ (md5HexChars (utf8Encode
            (key_string ["abc"] [("limit", "5"), ("q", "x")]))).take 16,
          c ∈ hexDigits)
      ∧ _generate_key "search" ["abc", "def"] []
          ≠ _generate_key "search" ["def", "abc"] []) :=
  c6_generate_key "search" ["abc"] [("limit", "5"), ("q", "x")]
    [("q", "x"), ("limit", "5")] (List.Perm.swap ("q", "x") ("limit", "5") [])

/-- Counterexample for C6 as frozen: swapping the two distinct positional
arguments `"a|a"` and `"a"` yields the identical key, because both argument
lists flatten to the same separator-joined hash input `"a|a|a"`. -/
theorem c6_counterexample :
    _generate_key "search" ["a|a", "a"] [] = _generate_key "search" ["a", "a|a"] []
    ∧ ("a|a" : String) ≠ "a" := by
  constructor
  · decide
  · decide

/-- Chunking the empty list gives no chunks. -/
theorem chunksOf_nil (n : Nat) : chunksOf n ([] : List α) = [] := rfl

/-- The accumulator-based chunk splitter agrees with the take/drop
description. -/
theorem chunksAux_eq {α : Type} (n : Nat) (hn : 0 < n) :
    ∀ (l cur : List α), cur.length < n →
      chunksAux n cur l
        = if (cur ++ l).isEmpty then []
          else (cur ++ l).take n :: chunksOf n ((cur ++ l).drop n) := by
  intro l
  induction l with
  | nil =>
    intro cur hcur
    simp only [chunksAux, List.append_nil]
    cases cur with
    | nil => rfl
    | cons a rest =>
      rw [if_neg (by simp), if_neg (by simp),
        List.take_of_length_le (le_of_lt hcur),
        List.drop_of_length_le (le_of_lt hcur), chunksOf_nil]
  | cons a rest ih =>
    intro cur hcur
    simp only [chunksAux]
    by_cases hlen : (cur ++ [a]).length = n
    · rw [if_pos hlen]
      have hassoc : cur ++ a :: rest = (cur ++ [a]) ++ rest := by simp
      rw [hassoc, List.take_left' hlen, List.drop_left' hlen]
      have hne : ((cur ++ [a]) ++ rest).isEmpty = false := by
        simp [List.isEmpty_iff]
      rw [hne]
      rfl
    · rw [if_neg hlen]
      have hlt : (cur ++ [a]).length < n := by
        simp only [List.length_append, List.length_cons, List.length_nil] at hlen ⊢
        omega
      rw [ih (cur ++ [a]) hlt]
      have hassoc : (cur ++ [a]) ++ rest = cur ++ a :: rest := by simp
      rw [hassoc]

/-- Unfolding equation for `chunksOf` on a nonempty list. -/
theorem chunksOf_eq {α : Type} (n : Nat) (hn : 0 < n) (l : List α)
    (hl : l ≠ []) :
    chunksOf n l = l.take n :: chunksOf n (l.drop n) := by
  have h := chunksAux_eq n hn l [] (by simpa using hn)
  simp only [List.nil_append] at h
  rw [chunksOf, h, if_neg (by simpa [List.isEmpty_iff] using hl)]

/-- Concatenating the chunks restores the original list. -/
theorem chunksOf_flatten {α : Type} (n : Nat) (hn : 0 < n) :
    ∀ l : List α, (chunksOf n l).flatten = l
  | [] => by simp [chunksOf_nil]
  | a :: rest => by
    rw [chunksOf_eq n hn _ (by simp), List.flatten_cons,
      chunksOf_flatten n hn ((a :: rest).drop n)]
    exact List.take_append_drop n (a :: rest)
termination_by l => l.length
decreasing_by simp; omega

/-- Every chunk has at most `n` elements. -/
theorem chunksOf_length_le {α : Type} (n : Nat) (hn : 0 < n) :
    ∀ l : List α, ∀ c ∈ chunksOf n l, c.length ≤ n
  | [] => by simp [chunksOf_nil]
  | a :: rest => by
    rw [chunksOf_eq n hn _ (by simp)]
    intro c hc
    rcases List.mem_cons.mp hc with rfl | hc
    · exact List.length_take_le ..
    · exact chunksOf_length_le n hn _ c hc
termination_by l => l.length
decreasing_by simp; omega

/-- The existence-check loop over the cleaned ids equals the chunk-wise
description: one call per 50-chunk, `False` entries substituted for a
chunk whose response is invalid, provided no chunk raises. -/
theorem checkLoop_eq (api : List String → ContainsResp) (ids : List String)
    (i : Nat) (acc : List Bool) (calls : List (List String))
    (hnoexn : ∀ c ∈ chunksOf 50 (ids.drop i), ∀ e,
      api c ≠ ContainsResp.exn e) :
    checkLoop api ids i acc calls
      = ((acc ++ ((chunksOf 50 (ids.drop i)).map (degradeChunk api)).flatten,
          none), calls ++ chunksOf 50 (ids.drop i)) := by
  by_cases h : i < ids.length
  · have hne : ids.drop i ≠ [] := by
      intro hcon
      have hlen := congrArg List.length hcon
      simp at hlen
      omega
    have hchunks : chunksOf 50 (ids.drop i)
        = (ids.drop i).take 50 :: chunksOf 50 (ids.drop (i + 50)) := by
      rw [chunksOf_eq 50 (by norm_num) _ hne, List.drop_drop, Nat.add_comm]
    have hchunkmem : (ids.drop i).take 50 ∈ chunksOf 50 (ids.drop i) := by
      rw [hchunks]
      exact List.mem_cons_self ..
    have hnoexn2 : ∀ c ∈ chunksOf 50 (ids.drop (i + 50)), ∀ e,
        api c ≠ ContainsResp.exn e := by
      intro c hc
      exact hnoexn c (by rw [hchunks]; exact List.mem_cons_of_mem _ hc)
    rw [checkLoop, dif_pos h]
    rcases hapi : api ((ids.drop i).take MAX_IDS_CHECK) with e | _ | res
    · exact absurd hapi
        (by simpa [MAX_IDS_CHECK] using hnoexn _ hchunkmem e)
    · simp only [hapi]
      rw [checkLoop_eq api ids (i + MAX_IDS_CHECK) _ _
        (by simpa [MAX_IDS_CHECK] using hnoexn2)]
      rw [show i + MAX_IDS_CHECK = i + 50 from rfl, hchunks]
      have hdeg : degradeChunk api ((ids.drop i).take 50)
          = List.replicate ((ids.drop i).take 50).length false := by
        simp only [degradeChunk, MAX_IDS_CHECK] at hapi ⊢
        rw [hapi]
      simp [hdeg, MAX_IDS_CHECK, List.append_assoc]
    · simp only [hapi]
      rw [checkLoop_eq api ids (i + MAX_IDS_CHECK) _ _
        (by simpa [MAX_IDS_CHECK] using hnoexn2)]
      rw [show i + MAX_IDS_CHECK = i + 50 from rfl, hchunks]
      have hdeg : degradeChunk api ((ids.drop i).take 50) = res := by
        simp only [degradeChunk, MAX_IDS_CHECK] at hapi ⊢
        rw [hapi]
      simp [hdeg, MAX_IDS_CHECK, List.append_assoc]
  · have hdrop : ids.drop i = [] := List.drop_eq_nil_of_le (by omega)
    rw [checkLoop, dif_neg h, hdrop, chunksOf_nil]
    simp
termination_by ids.length - i
decreasing_by all_goals (simp [MAX_IDS_CHECK]; omega)

/-- Ids that are nonempty and whitespace-free pass the cleaning step
unchanged. -/
theorem cleanIds_eq_self (ids : List String)
    (h : ∀ s ∈ ids, s ≠ "" ∧ pyStrip s = s) : cleanIds ids = ids := by
  induction ids with
  | nil => rfl
  | cons a rest ih =>
    obtain ⟨ha, hstrip⟩ := h a (List.mem_cons_self ..)
    simp only [cleanIds, List.filterMap_cons, hstrip, if_neg ha]
    exact congrArg (a :: ·) (ih fun s hs => h s (List.mem_cons_of_mem _ hs))

/-- Claim C8: for a list of (well-formed) track ids, the bulk existence
check splits the ids into consecutive chunks of at most 50, issues one call
per chunk (the recorded calls are exactly the chunks, whose concatenation
is the input in order), degrades a failed chunk's entries to `False` while
returning the other chunks' results, and when every chunk succeeds returns
the per-id booleans in input order. -/
theorem c8_exists_bulk_chunking (ids : List String)
    (api : List String → ContainsResp)
    (hclean : ∀ s ∈ ids, s ≠ "" ∧ pyStrip s = s)
    (hne : ids ≠ [])
    (hnoexn : ∀ c ∈ chunksOf 50 ids, ∀ e, api c ≠ ContainsResp.exn e) :
    check_saved_tracks ids none api
      = ((((chunksOf 50 ids).map (degradeChunk api)).flatten, none),
          chunksOf 50 ids)
    ∧ (∀ c ∈ chunksOf 50 ids, c.length ≤ 50)
    ∧ (chunksOf 50 ids).flatten = ids
    ∧ (∀ f : String → Bool,
        (∀ c ∈ chunksOf 50 ids, api c = .ok (c.map f)) →
        (check_saved_tracks ids none api).1 = (ids.map f, none)) := by
  have hcl := cleanIds_eq_self ids hclean
  have hmain : check_saved_tracks ids none api
      = ((((chunksOf 50 ids).map (degradeChunk api)).flatten, none),
          chunksOf 50 ids) := by
    rw [check_saved_tracks, if_neg hne]
    simp only [hcl, if_neg hne]
    have h := checkLoop_eq api ids 0 [] [] (by simpa using hnoexn)
    simpa using h
  refine ⟨hmain, chunksOf_length_le 50 (by norm_num) ids,
    chunksOf_flatten 50 (by norm_num) ids, ?_⟩
  intro f hf
  rw [hmain]
  have hmap : (chunksOf 50 ids).map (degradeChunk api)
      = (chunksOf 50 ids).map (List.map f) := by
    refine List.map_congr_left fun c hc => ?_
    simp [degradeChunk, hf c hc]
  rw [hmap, ← List.map_flatten, chunksOf_flatten 50 (by norm_num) ids]

/-- Witness for C8: 120 distinct ids form chunks of 50/50/20; the middle
chunk's invalid response degrades to 50 `False` entries while the other two
chunks' `True` results are returned in order. -/
theorem c8_witness :
    (check_saved_tracks c8ids none c8api
        = ((((chunksOf 50 c8ids).map (degradeChunk c8api)).flatten, none),
            chunksOf 50 c8ids)
      ∧ (∀ c ∈ chunksOf 50 c8ids, c.length ≤ 50)
      ∧ (chunksOf 50 c8ids).flatten = c8ids
      ∧ (∀ f : String → Bool,
          (∀ c ∈ chunksOf 50 c8ids, c8api c = .ok (c.map f)) →
          (check_saved_tracks c8ids none c8api).1 = (c8ids.map f, none)))
    ∧ ((chunksOf 50 c8ids).map (degradeChunk c8api)).flatten
        = List.replicate 50 true ++ List.replicate 50 false
          ++ List.replicate 20 true
    ∧ (chunksOf 50 c8ids).length = 3 :=
  ⟨c8_exists_bulk_chunking c8ids c8api (by decide) (by decide)
      (by intro c hc e; unfold c8api; split <;> simp),
    by decide, by decide⟩

/-- Every call the auto-pagination loop makes uses page size 50, and from
page `p` it makes at most `1001 - p` further calls. -/
theorem getAllLoop_trace (api : Nat → SavedTracksResp) :
    ∀ page offset acc trace, 1 ≤ page → page ≤ 1000 →
      (∀ c ∈ (getAllLoop api offset page acc trace).2, c ∈ trace ∨ c.1 = 50)
      ∧ (getAllLoop api offset page acc trace).2.length
          ≤ trace.length + (1001 - page) := by
  intro page offset acc trace h1 h1000
  rw [getAllLoop]
  rcases hapi : api offset with e | _ | _ | items
  all_goals simp only [hapi]
  · constructor
    · intro c hc
      rcases List.mem_append.mp hc with hc | hc
      · exact Or.inl hc
      · simp at hc
        simp [hc]
    · simp
      omega
  · constructor
    · intro c hc
      rcases List.mem_append.mp hc with hc | hc
      · exact Or.inl hc
      · simp at hc
        simp [hc]
    · simp
      omega
  · constructor
    · intro c hc
      rcases List.mem_append.mp hc with hc | hc
      · exact Or.inl hc
      · simp at hc
        simp [hc]
    · simp
      omega
  · by_cases hemp : items = []
    · rw [if_pos hemp]
      constructor
      · intro c hc
        rcases List.mem_append.mp hc with hc | hc
        · exact Or.inl hc
        · simp at hc
          simp [hc]
      · simp
        omega
    · rw [if_neg hemp]
      by_cases hshort : items.length < 50
      · rw [if_pos hshort]
        constructor
        · intro c hc
          rcases List.mem_append.mp hc with hc | hc
          · exact Or.inl hc
          · simp at hc
            simp [hc]
        · simp
          omega
      · rw [if_neg hshort]
        by_cases hcap : 1000 < page + 1
        · rw [dif_pos hcap]
          constructor
          · intro c hc
            rcases List.mem_append.mp hc with hc | hc
            · exact Or.inl hc
            · simp at hc
              simp [hc]
          · simp
            omega
        · rw [dif_neg hcap]
          have ih := getAllLoop_trace api (page + 1) (offset + 50)
            (acc ++ parseTracks items) (trace ++ [(50, offset)])
            (by omega) (by omega)
          constructor
          · intro c hc
            rcases ih.1 c hc with hc2 | hc2
            · rcases List.mem_append.mp hc2 with hc3 | hc3
              · exact Or.inl hc3
              · simp at hc3
                simp [hc3]
            · exact Or.inr hc2
          · have hlen := ih.2
            simp only [List.length_append, List.length_cons,
              List.length_nil] at hlen ⊢
            omega
termination_by page => 1001 - page
decreasing_by simp_wf; omega

/-- Running the loop from page `j+1` (offset `50*j`) over an API that keeps
returning full 50-item pages reaches the 1000-page cap and returns the
pages gathered so far with no error. -/
theorem getAllLoop_full (api : Nat → SavedTracksResp)
    (items : Nat → List (Option Track)) :
    ∀ m j acc trace, j + m = 1000 → 1 ≤ m →
      (∀ k, j ≤ k → k < 1000 → api (50 * k) = .ok (items k)
        ∧ (items k).length = 50) →
      getAllLoop api (50 * j) (j + 1) acc trace
        = ((acc ++ ((List.range' j m).map fun k =>
              parseTracks (items k)).flatten, none),
          trace ++ (List.range' j m).map fun k => (50, 50 * k)) := by
  intro m
  induction m with
  | zero =>
    intro j acc trace hj hm
    omega
  | succ m ih =>
    intro j acc trace hj hm hfull
    obtain ⟨hapi, hlen⟩ := hfull j (le_refl j) (by omega)
    rw [getAllLoop]
    simp only [hapi]
    have hne : items j ≠ [] := by
      intro hcon
      rw [hcon] at hlen
      simp at hlen
    rw [if_neg hne, if_neg (by omega : ¬(items j).length < 50)]
    by_cases hcap : 1000 < (j + 1) + 1
    · have hm0 : m = 0 := by omega
      have hj999 : j = 999 := by omega
      subst hm0
      subst hj999
      rw [dif_pos hcap]
      simp
    · rw [dif_neg hcap]
      rw [show 50 * j + 50 = 50 * (j + 1) from by ring]
      rw [ih (j + 1) (acc ++ parseTracks (items j)) (trace ++ [(50, 50 * j)])
        (by omega) (by omega) (fun k hk hk2 => hfull k (by omega) hk2)]
      rw [List.range'_succ j m 1]
      simp [List.append_assoc]

/-- Running the loop from page `j+1` over an API whose pages `j..k-1` are
full and whose page `k` is short (nonempty, fewer than 50 items) stops right
after page `k` with no error. -/
theorem getAllLoop_short (api : Nat → SavedTracksResp)
    (items : Nat → List (Option Track)) (k : Nat)
    (hk : k < 1000) (hkapi : api (50 * k) = .ok (items k))
    (hkne : items k ≠ []) (hkshort : (items k).length < 50) :
    ∀ m j acc trace, j + m = k →
      (∀ i, j ≤ i → i < k → api (50 * i) = .ok (items i)
        ∧ (items i).length = 50) →
      getAllLoop api (50 * j) (j + 1) acc trace
        = ((acc ++ ((List.range' j (m + 1)).map fun i =>
              parseTracks (items i)).flatten, none),
          trace ++ (List.range' j (m + 1)).map fun i => (50, 50 * i)) := by
  intro m
  induction m with
  | zero =>
    intro j acc trace hj hfull
    have hjk : j = k := by omega
    subst hjk
    rw [getAllLoop]
    simp only [hkapi]
    rw [if_neg hkne, if_pos hkshort]
    simp
  | succ m ih =>
    intro j acc trace hj hfull
    obtain ⟨hapi, hlen⟩ := hfull j (le_refl j) (by omega)
    rw [getAllLoop]
    simp only [hapi]
    have hne : items j ≠ [] := by
      intro hcon
      rw [hcon] at hlen
      simp at hlen
    rw [if_neg hne, if_neg (by omega : ¬(items j).length < 50),
      dif_neg (by omega : ¬1000 < (j + 1) + 1)]
    rw [show 50 * j + 50 = 50 * (j + 1) from by ring]
    rw [ih (j + 1) (acc ++ parseTracks (items j)) (trace ++ [(50, 50 * j)])
      (by omega) (fun i hi hi2 => hfull i (by omega) hi2)]
    rw [List.range'_succ j (m + 1) 1]
    simp [List.append_assoc]

/-- Claim C7: `get_all_saved_tracks` requests pages of size 50 and makes at
most 1000 calls; it stops as soon as a page with fewer than 50 items is
returned (after `k` full pages and one short page it has made exactly `k+1`
calls); and when every page up to the 1000-page cap is full it returns the
partial list of those 1000 pages with no error value. -/
theorem c7_fetch_all_pagination (api : Nat → SavedTracksResp) :
    (∀ c ∈ (get_all_saved_tracks none api).2, c.1 = 50)
    ∧ (get_all_saved_tracks none api).2.length ≤ 1000
    ∧ (∀ items : Nat → List (Option Track),
        (∀ k, k < 1000 → api (50 * k) = .ok (items k)
          ∧ (items k).length = 50) →
        get_all_saved_tracks none api
          = ((((List.range' 0 1000).map fun k =>
                parseTracks (items k)).flatten, none),
            (List.range' 0 1000).map fun k => (50, 50 * k)))
    ∧ (∀ (items : Nat → List (Option Track)) (k : Nat), k < 1000 →
        (∀ i, i < k → api (50 * i) = .ok (items i)
          ∧ (items i).length = 50) →
        api (50 * k) = .ok (items k) → items k ≠ [] →
        (items k).length < 50 →
        get_all_saved_tracks none api
          = ((((List.range' 0 (k + 1)).map fun i =>
                parseTracks (items i)).flatten, none),
            (List.range' 0 (k + 1)).map fun i => (50, 50 * i))) := by
  have h0 : get_all_saved_tracks none api = getAllLoop api 0 1 [] [] := rfl
  refine ⟨?_, ?_, ?_, ?_⟩
  · intro c hc
    rw [h0] at hc
    rcases (getAllLoop_trace api 1 0 [] [] (by norm_num) (by norm_num)).1
        c hc with h | h
    · simp at h
    · exact h
  · rw [h0]
    have h := (getAllLoop_trace api 1 0 [] [] (by norm_num) (by norm_num)).2
    simpa using h
  · intro items hfull
    rw [h0]
    have h := getAllLoop_full api items 1000 0 [] [] (by norm_num)
      (by norm_num) (fun k _ hk2 => hfull k hk2)
    simpa using h
  · intro items k hk hfull hkapi hkne hkshort
    rw [h0]
    have h := getAllLoop_short api items k hk hkapi hkne hkshort k 0 [] []
      (by omega) (fun i _ h2 => hfull i h2)
    simpa using h

/-- Witness for C7: an API whose first page is short (one item) makes
exactly one call of size 50 at offset 0 and returns that item with no
error. -/
theorem c7_witness :
    (get_all_saved_tracks none (fun _ => SavedTracksResp.ok [some sampleTrack])
        = ((((List.range' 0 (0 + 1)).map fun i =>
              parseTracks ((fun _ => [some sampleTrack]) i)).flatten, none),
          (List.range' 0 (0 + 1)).map fun i => (50, 50 * i)))
    ∧ (((List.range' 0 (0 + 1)).map fun i =>
          parseTracks ((fun _ => [some sampleTrack]) i)).flatten, none)
        = ([sampleTrack], (none : Option String))
    ∧ ((List.range' 0 (0 + 1)).map fun i => (50, 50 * i)) = [(50, 0)] :=
  ⟨(c7_fetch_all_pagination (fun _ => SavedTracksResp.ok [some sampleTrack])).2.2.2
      (fun _ => [some sampleTrack]) 0 (by decide)
      (fun i hi => absurd hi (Nat.not_lt_zero i)) rfl (by decide) (by decide),
    by decide, by decide⟩

end RhythmBox
